import Mathlib

/-!
Verification of the simple-notes-manager database setup scripts.

The repository consists of two Python scripts built around SQLite:

* `src/database/ensure_notes_schema.py` — a path resolver
  (`_get_db_path_from_connection_file`) plus `ensure_notes_schema`, which
  applies a single `CREATE TABLE IF NOT EXISTS notes (...)` statement, and a
  `main` entry point.
* `src/database/init_db.py` — a module-level script: its own copy of the
  path resolver, a connectivity check, three `CREATE TABLE IF NOT EXISTS`
  statements, four `INSERT OR REPLACE` seed rows, a commit, two `COUNT`
  statistics, and the writing of `db_connection.txt` and
  `db_visualizer/sqlite.env`.

This file embeds those scripts shallowly: file contents are strings, the
database is the fragment of SQLite state the scripts observe, and the
fallible sqlite3 / filesystem calls are driven by explicit failure oracles.
-/

namespace NotesDb

/-! ## Whitespace and Python string primitives -/

/-- The whitespace characters of the Python regex class `\s` (and of
`str.strip`) in the ASCII range: space, tab, newline, carriage return,
vertical tab (11) and form feed (12).  Python additionally treats a few
Unicode-only code points as whitespace; the file contents handled by the
scripts are ASCII, which this embedding models. -/
def isPyWs (c : Char) : Bool :=
  c = ' ' || c = '\t' || c = '\n' || c = '\r' || c = Char.ofNat 11 || c = Char.ofNat 12

/-- Remove trailing whitespace from a character list. -/
def trimTrail (l : List Char) : List Char :=
  (l.reverse.dropWhile isPyWs).reverse

/-- Python `str.strip` on a character list: remove leading and trailing
whitespace. -/
def stripChars (l : List Char) : List Char :=
  trimTrail (l.dropWhile isPyWs)

/-- Python `str.strip`. -/
def pyStrip (s : String) : String :=
  String.mk (stripChars s.data)

/-- The line structure of a text: split at every newline character, so a
text with k newlines has k+1 lines (the chunk after the last newline is a
line, possibly empty). -/
def splitLines : List Char → List (List Char)
  | [] => [[]]
  | c :: rest =>
    if c = '\n' then [] :: splitLines rest
    else
      match splitLines rest with
      | [] => [[c]]
      | f :: fs => (c :: f) :: fs

/-- Rebuild a text from its lines, interposing newlines (inverse of
`splitLines`). -/
def joinLines : List (List Char) → List Char
  | [] => []
  | [f] => f
  | f :: rest => f ++ '\n' :: joinLines rest

/-! ## The connection-file regex

Both scripts locate the database path with

  `re.search(r"^\s*#\s*File path:\s*(.+?)\s*$", text, flags=re.MULTILINE)`

With `re.MULTILINE`, `^` anchors at the start of the text and after every
newline, and `$` matches at the end of the text and before every newline;
`re.search` returns the match at the leftmost of those anchor positions.
`\s` matches the newline itself, so the `\s*` pieces of the pattern may run
across line boundaries, while `.` never matches a newline, so the capture
group `(.+?)` always lies within a single line. -/

/-- The literal `File path:` of the regex. -/
def filePathLit : List Char := "File path:".data

/-- Semantics of the pattern tail `\s*(.+?)\s*$` against the remaining text
`t` (everything after the matched `File path:`), returning the capture
group `(.+?)` when the tail matches.

The leading `\s*` is greedy and backtracks, `(.+?)` is lazy and cannot
contain a newline, and `\s*$` requires the rest of the capture's line to be
whitespace.  Backtracking resolves as follows. If `t` contains a
non-whitespace character, the greedy `\s*` stops right before the first
one and the group is the rest of that character's line with trailing
whitespace removed.  If `t` is whitespace only, `\s*` backtracks until
`(.+?)` can take a single character, which must not be a newline, so the
match succeeds with a one-character whitespace group exactly when `t`
contains a character other than `'\n'` (the group is the last such
character). -/
def extractTailAux (t : List Char) : List Char → Option (List Char)
  | [] => (t.reverse.find? (fun c => c ≠ '\n')).map (fun c => [c])
  | a :: u => some (trimTrail ((a :: u).takeWhile (fun c => c ≠ '\n')))

/-- The tail semantics, dispatching on whether any non-whitespace character
remains in `t`. -/
def extractTail (t : List Char) : Option (List Char) :=
  extractTailAux t (t.dropWhile isPyWs)

/-- Match of `#\s*File path:\s*(.+?)\s*$` at a position where the leading
`^\s*` has already been consumed: expect `#`, skip whitespace (which may
cross newlines), expect the literal `File path:`, then run the tail
semantics.  The two `\s*` runs are deterministic because neither `#` nor
`F` is whitespace. -/
def matchAtCore : List Char → Option (List Char)
  | [] => none
  | c :: rest =>
    if c = '#' then
      let s := rest.dropWhile isPyWs
      if filePathLit.isPrefixOf s then extractTail (s.drop filePathLit.length)
      else none
    else none

/-- Attempt the whole pattern anchored at the start of `l`, where `l` is the
entire remaining text from some line start (the pattern's `\s*` pieces may
consume newlines, so the match is not confined to one line). -/
def matchAt (l : List Char) : Option (List Char) :=
  matchAtCore (l.dropWhile isPyWs)

/-- `re.search` with `re.MULTILINE`: try the pattern anchored at each line
start from left to right and return the group of the first match.  The
argument is the line structure of the text; the text seen from the i-th
line start is `joinLines` of the lines from i on. -/
def searchLines : List (List Char) → Option (List Char)
  | [] => none
  | f :: rest =>
    match matchAt (joinLines (f :: rest)) with
    | some g => some g
    | none => searchLines rest

/-- The regex-based extraction shared by both copies of
`_get_db_path_from_connection_file`:
`m.group(1).strip() if m else "myapp.db"`. -/
def resolveFromText (text : String) : String :=
  match searchLines (splitLines text.data) with
  | some g => pyStrip (String.mk g)
  | none => "myapp.db"

/-! ## The two path resolvers -/

/-- Outcome of the scripts' access to `db_connection.txt`: the file is
absent, or it exists but reading it raises, or it has the given content. -/
inductive FileRead where
  | absent
  | unreadable
  | content (text : String)
deriving DecidableEq

/-- `_get_db_path_from_connection_file` of `ensure_notes_schema.py`.  The
`os.path.exists` guard handles the absent file, but the `open`/`read` is
not wrapped in `try`, so a read failure on an existing file propagates to
the caller (modelled as `Except.error`). -/
def getDbPathEnsure : FileRead → Except Unit String
  | .absent => .ok "myapp.db"
  | .unreadable => .error ()
  | .content t => .ok (resolveFromText t)

/-- `_get_db_path_from_connection_file` of `init_db.py`.  Identical regex
logic, but the `open`/`read` is wrapped in `try`/`except` returning
`DB_NAME`, so a read failure degrades to the default. -/
def getDbPathInit : FileRead → String
  | .absent => "myapp.db"
  | .unreadable => "myapp.db"
  | .content t => resolveFromText t

example : resolveFromText "# File path: /tmp/x.db" = "/tmp/x.db" := by decide
example : resolveFromText "   #  File path:   /tmp/x.db   " = "/tmp/x.db" := by decide
example : resolveFromText "# File path:\njunk\n# File path: real\n" = "junk" := by decide
example : resolveFromText "# File path:   \nnext" = "next" := by decide
example : resolveFromText "# File path: \n" = "" := by decide
example : resolveFromText "# File path:\n\n\n" = "myapp.db" := by decide
example : resolveFromText "# File path:" = "myapp.db" := by decide
example : resolveFromText "#\nFile path: x" = "x" := by decide
example : resolveFromText "  \n# File path: a" = "a" := by decide
example : resolveFromText "## File path: x" = "myapp.db" := by decide
example : resolveFromText "#File path: x" = "x" := by decide
example : resolveFromText "# File path:  a b  \nmore" = "a b" := by decide
example : resolveFromText "# File path:\n  multi word  \nmore" = "multi word" := by decide
example : resolveFromText "no match here" = "myapp.db" := by decide
example : resolveFromText "abc\n  \n   # File path: v1\n# File path: v2" = "v1" := by decide

/-! ## The database model

The scripts observe only two aspects of the SQLite state: the user table
list of `sqlite_master` (table name and creation DDL) and the
`(key, value)` rows of `app_info` (the `id` and `created_at` columns are
filled by the engine and never read back, and `users`/`notes` rows are
never touched). -/

/-- The observable SQLite database state. -/
structure DB where
  tables : List (String × String)
  appInfo : List (String × String)
deriving DecidableEq

/-- `CREATE TABLE IF NOT EXISTS`: a no-op when a table of that name already
exists (whatever its stored DDL); otherwise the table is appended to
`sqlite_master` with the issued DDL text. -/
def createTableIfNotExists (name ddl : String) (db : DB) : DB :=
  if db.tables.any (fun t => t.1 == name) then db
  else { db with tables := db.tables ++ [(name, ddl)] }

/-- `INSERT OR REPLACE INTO app_info (key, value) VALUES (?, ?)`: the
`UNIQUE` constraint on `key` makes a conflicting row be deleted and the new
row inserted (with a fresh rowid, hence at the end). -/
def insertOrReplaceAppInfo (k v : String) (db : DB) : DB :=
  { db with appInfo := db.appInfo.filter (fun r => !(r.1 == k)) ++ [(k, v)] }

/-- A single-quote character as a string, used to build the SQL literals
`datetime('now')` and the sample line `sqlite3.connect('myapp.db')`. -/
def sq : String := String.mk [Char.ofNat 39]

/-- The triple-quoted `notes` DDL literal of `ensure_notes_schema.py`
(before the `.strip()` that the source applies to it): the body is indented
eight spaces, the columns twelve. -/
def ensureNotesDdlRaw : String :=
  "\n        CREATE TABLE IF NOT EXISTS notes (\n            id INTEGER PRIMARY KEY AUTOINCREMENT,\n            title TEXT NOT NULL,\n            content TEXT NOT NULL,\n            created_at TEXT NOT NULL DEFAULT (datetime(" ++ sq ++ "now" ++ sq ++ ")),\n            updated_at TEXT NOT NULL DEFAULT (datetime(" ++ sq ++ "now" ++ sq ++ "))\n        )\n        "

/-- The `notes` DDL statement `ensure_notes_schema` actually executes:
the literal with `.strip()` applied. -/
def ensureNotesDdl : String := pyStrip ensureNotesDdlRaw

/-- The `app_info` DDL literal executed by `init_db.py` (no strip is
applied there; body indented four spaces, columns eight). -/
def initAppInfoDdl : String :=
  "\n    CREATE TABLE IF NOT EXISTS app_info (\n        id INTEGER PRIMARY KEY AUTOINCREMENT,\n        key TEXT UNIQUE NOT NULL,\n        value TEXT,\n        created_at TIMESTAMP DEFAULT CURRENT_TIMESTAMP\n    )\n"

/-- The `users` DDL literal executed by `init_db.py`. -/
def initUsersDdl : String :=
  "\n    CREATE TABLE IF NOT EXISTS users (\n        id INTEGER PRIMARY KEY AUTOINCREMENT,\n        username TEXT UNIQUE NOT NULL,\n        email TEXT UNIQUE NOT NULL,\n        created_at TIMESTAMP DEFAULT CURRENT_TIMESTAMP\n    )\n"

/-- The `notes` DDL literal executed by `init_db.py`. -/
def initNotesDdl : String :=
  "\n    CREATE TABLE IF NOT EXISTS notes (\n        id INTEGER PRIMARY KEY AUTOINCREMENT,\n        title TEXT NOT NULL,\n        content TEXT NOT NULL,\n        created_at TEXT NOT NULL DEFAULT (datetime(" ++ sq ++ "now" ++ sq ++ ")),\n        updated_at TEXT NOT NULL DEFAULT (datetime(" ++ sq ++ "now" ++ sq ++ "))\n    )\n"

/-! ## ensure_notes_schema and its entry point -/

/-- Failure oracle for the sqlite3 calls of `ensure_notes_schema`: each
field says whether the corresponding call (`connect`, the single
`cur.execute`, `conn.commit`) raises, and with which message. -/
structure EnsureBehavior where
  connectErr : Option String
  execErr : Option String
  commitErr : Option String
deriving DecidableEq

/-- The engine behavior in which every call succeeds. -/
def okEnsure : EnsureBehavior := ⟨none, none, none⟩

/-- Whether the database connection was released by the end of the call. -/
inductive ConnFate where
  | neverOpened
  | closed
deriving DecidableEq

instance {ε α : Type} [DecidableEq ε] [DecidableEq α] : DecidableEq (Except ε α) :=
  fun a b =>
    match a, b with
    | .ok x, .ok y =>
      if h : x = y then isTrue (h ▸ rfl) else isFalse fun hh => h (Except.ok.inj hh)
    | .error x, .error y =>
      if h : x = y then isTrue (h ▸ rfl) else isFalse fun hh => h (Except.error.inj hh)
    | .ok _, .error _ => isFalse fun h => Except.noConfusion h
    | .error _, .ok _ => isFalse fun h => Except.noConfusion h

/-- Observable outcome of one `ensure_notes_schema(db_path)` call:
whether it returned or raised, the persisted database file state, and the
fate of the connection. -/
structure EnsureRunOut where
  outcome : Except String Unit
  db : DB
  conn : ConnFate
deriving DecidableEq

/-- `ensure_notes_schema(db_path)` against initial file state `db0`.

The source connects, then inside `try` executes the one DDL statement and
commits, with `finally: conn.close()`.  So: a `connect` failure propagates
with the connection never opened; any later failure propagates after the
`finally` has closed the connection.  In the sqlite3 module's default
isolation mode a DDL statement is executed outside any implicit
transaction, so a successfully executed `CREATE TABLE` is persisted even if
the subsequent `commit` raises. -/
def ensureRun (b : EnsureBehavior) (db0 : DB) : EnsureRunOut :=
  match b.connectErr with
  | some e => ⟨.error e, db0, .neverOpened⟩
  | none =>
    match b.execErr with
    | some e => ⟨.error e, db0, .closed⟩
    | none =>
      match b.commitErr with
      | some e => ⟨.error e, createTableIfNotExists "notes" ensureNotesDdl db0, .closed⟩
      | none => ⟨.ok (), createTableIfNotExists "notes" ensureNotesDdl db0, .closed⟩

/-- Observable outcome of the `main()` entry point of
`ensure_notes_schema.py`: the process exit code and whether an error was
written to the error stream. -/
structure EnsureMainOut where
  exitCode : Nat
  stderrHasError : Bool
deriving DecidableEq

/-- `main()` of `ensure_notes_schema.py`: resolve the path, call
`ensure_notes_schema`, and on `sqlite3.Error` print to stderr and
`sys.exit(1)`; on success return normally (exit code 0).  An exception
escaping the unguarded resolver also terminates the interpreter with exit
code 1 (uncaught exceptions print a traceback to stderr). -/
def ensureMain (fs : FileRead) (b : EnsureBehavior) (db0 : DB) : EnsureMainOut :=
  match getDbPathEnsure fs with
  | .error _ => ⟨1, true⟩
  | .ok _ =>
    match (ensureRun b db0).outcome with
    | .error _ => ⟨1, true⟩
    | .ok _ => ⟨0, false⟩

/-! ## The init_db.py script -/

/-- Failure oracle for the fallible steps of `init_db.py`.  `checkErr`,
`sidecarErr` and `envErr` drive calls that the script wraps in
`try`/`except` (the `SELECT 1` connectivity check, the `db_connection.txt`
write and the `db_visualizer/sqlite.env` write); `connectErr`, `execErr`,
`commitErr`, `statsErr` and `mkdirErr` drive the unguarded
`sqlite3.connect`, the seven `cursor.execute` statements (the number tells
which one raises, counting from 0), `conn.commit`, the two `COUNT`
statistic queries, and the `os.makedirs("db_visualizer")` call.  The
`makedirs` call is only made when the directory does not already exist, so
an already-present directory is the `none` case of `mkdirErr`. -/
structure InitBehavior where
  checkErr : Option String
  connectErr : Option String
  execErr : Option (Nat × String)
  commitErr : Option String
  statsErr : Option String
  sidecarErr : Option String
  mkdirErr : Option String
  envErr : Option String
deriving DecidableEq

/-- The behavior in which every step of `init_db.py` succeeds. -/
def okInit : InitBehavior := ⟨none, none, none, none, none, none, none, none⟩

/-- The seven `cursor.execute` statements of `init_db.py`, in source order:
three `CREATE TABLE IF NOT EXISTS` and four `INSERT OR REPLACE` seeds. -/
def initOps : List (DB → DB) :=
  [ createTableIfNotExists "app_info" initAppInfoDdl,
    createTableIfNotExists "users" initUsersDdl,
    createTableIfNotExists "notes" initNotesDdl,
    insertOrReplaceAppInfo "project_name" "database",
    insertOrReplaceAppInfo "version" "0.1.0",
    insertOrReplaceAppInfo "author" "John Doe",
    insertOrReplaceAppInfo "description" "" ]

/-- Python `lstrip('/')`. -/
def lstripSlashes (s : String) : String :=
  String.mk (s.data.dropWhile (fun c => c = '/'))

/-- `connection_string = f"sqlite:////{db_abs_path.lstrip('/')}"`. -/
def connectionStringOf (absPath : String) : String :=
  "sqlite:////" ++ lstripSlashes absPath

/-- The four lines the script writes to `db_connection.txt`, in order:
comment header, Python usage example, connection string, and the
authoritative `# File path:` line. -/
def sidecarContentOf (absPath : String) : String :=
  "# SQLite connection methods:\n"
    ++ ("# Python: sqlite3.connect(" ++ sq ++ "myapp.db" ++ sq ++ ")\n")
    ++ ("# Connection string: " ++ connectionStringOf absPath ++ "\n")
    ++ ("# File path: " ++ absPath ++ "\n")

/-- The single line written to `db_visualizer/sqlite.env`. -/
def envFileContentOf (absPath : String) : String :=
  "export SQLITE_DB=\"" ++ absPath ++ "\"\n"

/-- `SELECT COUNT(*) FROM sqlite_master WHERE type='table' AND name NOT
LIKE 'sqlite_%'`. -/
def userTableCount (db : DB) : Nat :=
  (db.tables.filter (fun t => !("sqlite_".data.isPrefixOf t.1.data))).length

/-- Observable outcome of one run of the `init_db.py` script: the process
exit code, the resolved path, the persisted database file state (`none`
when the file never came to exist), the contents of the two files it may
write (`none` when not written), the two statistics it queries and prints
in its summary (`none` when the run died before computing them), and the
warnings it logged. -/
structure InitResult where
  exitCode : Nat
  dbPath : String
  dbFile : Option DB
  sidecar : Option String
  envFile : Option String
  tableCount : Option Nat
  recordCount : Option Nat
  warnings : List String
deriving DecidableEq

/-- One run of the `init_db.py` script.

`fs` is the state of `db_connection.txt`, `dbFile0` the state of the
database file (`none` when absent), and `absPath` stands for
`os.path.abspath(db_path)`, which depends on the process working directory
and is therefore an oracle parameter of the embedding.

The script resolves the path, runs the guarded connectivity check when the
file exists (a failure only logs a warning), connects (creating the file),
executes the seven statements, commits, queries the two statistics, closes,
does the guarded sidecar write, calls the unguarded
`os.makedirs("db_visualizer")` when that directory is absent, and then does
the guarded env-file write.  `connect`, the seven `execute`s, `commit`, the
statistic queries and the `makedirs` call are not guarded: an exception
there escapes the script and the interpreter exits with code 1 (for
`makedirs`, after the sidecar write has already happened and before the
env-file write is attempted).
In the sqlite3 module's default isolation mode the `CREATE TABLE`
statements are persisted as soon as they execute, while the `INSERT OR
REPLACE` rows join an implicit transaction that only `conn.commit()`
persists; a run that dies before the commit therefore persists exactly the
tables created so far. -/
def initRun (fs : FileRead) (b : InitBehavior) (dbFile0 : Option DB) (absPath : String) :
    InitResult :=
  let dbPath := getDbPathInit fs
  let warns0 : List String :=
    match dbFile0, b.checkErr with
    | some _, some e => ["Warning: Database exists but may be corrupted: " ++ e]
    | _, _ => []
  match b.connectErr with
  | some _ => ⟨1, dbPath, dbFile0, none, none, none, none, warns0⟩
  | none =>
    let db0 := dbFile0.getD ⟨[], []⟩
    match b.execErr with
    | some (k, _) =>
      ⟨1, dbPath, some ((initOps.take (min k 3)).foldl (fun d op => op d) db0),
        none, none, none, none, warns0⟩
    | none =>
      let db1 := initOps.foldl (fun d op => op d) db0
      match b.commitErr with
      | some _ =>
        ⟨1, dbPath, some ((initOps.take 3).foldl (fun d op => op d) db0),
          none, none, none, none, warns0⟩
      | none =>
        match b.statsErr with
        | some _ => ⟨1, dbPath, some db1, none, none, none, none, warns0⟩
        | none =>
          let tc := userTableCount db1
          let rc := db1.appInfo.length
          let sidecarRes : Option String × List String :=
            match b.sidecarErr with
            | some e => (none, ["Warning: Could not save connection info: " ++ e])
            | none => (some (sidecarContentOf absPath), [])
          match b.mkdirErr with
          | some _ =>
            ⟨1, dbPath, some db1, sidecarRes.1, none, some tc, some rc,
              warns0 ++ sidecarRes.2⟩
          | none =>
            let envRes : Option String × List String :=
              match b.envErr with
              | some e => (none, ["Warning: Could not save environment variables: " ++ e])
              | none => (some (envFileContentOf absPath), [])
            ⟨0, dbPath, some db1, sidecarRes.1, envRes.1, some tc, some rc,
              warns0 ++ sidecarRes.2 ++ envRes.2⟩

/-! ## The specification's reading of the path resolver

The specification describes the resolver line by line: a line matching
`# File path: <value>` (leading whitespace before the `#` tolerated)
contributes its value trimmed of surrounding whitespace, and the first
matching line wins.  The following definitions transcribe that reading so
that it can be compared with the embedding of the code. -/

/-- Written from the specification's words: the value of a line matching
`# File path: <value>` — optional leading whitespace, `#`, optional
whitespace, the literal `File path:`, and a value that is not all
whitespace, returned trimmed.  Yields `none` for a non-matching line. -/
def specLineValueCore : List Char → Option String
  | [] => none
  | c :: rest =>
    if c = '#' then
      let s := rest.dropWhile isPyWs
      if filePathLit.isPrefixOf s then
        let r := s.drop filePathLit.length
        if (r.dropWhile isPyWs).isEmpty then none
        else some (String.mk (stripChars r))
      else none
    else none

/-- The per-line matching of the specification, applied to a line. -/
def specLineValue (line : List Char) : Option String :=
  specLineValueCore (line.dropWhile isPyWs)

/-- The value of the first line (in order) that matches, if any. -/
def firstLineValue : List (List Char) → Option String
  | [] => none
  | f :: rest =>
    match specLineValue f with
    | some v => some v
    | none => firstLineValue rest

/-- Written from the specification's words: return the first matching
line's trimmed value, and the fixed default name when no line matches. -/
def specResolve (text : String) : String :=
  match firstLineValue (splitLines text.data) with
  | some v => v
  | none => "myapp.db"

/-- A line after which the regex search cannot escape onto later lines: it
is not a bare `#` (whose pattern `\s*` after `#` would run past the
newline), and if it is a `# File path:` line then its value part contains a
non-whitespace character on the same line (otherwise `\s*(.+?)` would
capture from a later line). -/
def goodLineCore : List Char → Bool
  | [] => true
  | c :: rest =>
    if c = '#' then
      let s := rest.dropWhile isPyWs
      if s.isEmpty then false
      else if filePathLit.isPrefixOf s then
        !((s.drop filePathLit.length).dropWhile isPyWs).isEmpty
      else true
    else true

/-- The `goodLine` test applied after stripping the line's leading
whitespace. -/
def goodLine (line : List Char) : Bool :=
  goodLineCore (line.dropWhile isPyWs)

/-- A text on which the multiline regex search coincides with the
specification's line-by-line reading: every line is `goodLine`. -/
def goodText (text : String) : Bool :=
  (splitLines text.data).all goodLine

example : specResolve "# File path:\njunk\n# File path: real\n" = "real" := by decide
example : resolveFromText "# File path:\njunk\n# File path: real\n" = "junk" := by decide
example : goodText "# File path: /t/x\nstuff\n# File path: o" = true := by decide
example : goodText "# File path:\njunk" = false := by decide
example :
    (initRun .absent okInit none "/tmp/myapp.db").tableCount = some 3 := by decide
example :
    (initRun .absent okInit none "/tmp/myapp.db").recordCount = some 4 := by decide
example :
    resolveFromText (sidecarContentOf "/tmp/x.db") = "/tmp/x.db" := by decide
example :
    (initRun .absent ⟨none, none, none, some "disk I/O error", none, none, none, none⟩
      none "/tmp/myapp.db").exitCode = 1 := by decide

/-! ## List helper lemmas -/

theorem dropWhile_append_nil {p : Char → Bool} {l m : List Char}
    (h : l.dropWhile p = []) : (l ++ m).dropWhile p = m.dropWhile p := by
  induction l with
  | nil => rfl
  | cons a l ih =>
    rw [List.dropWhile_cons] at h
    by_cases hp : p a
    · simp only [hp, if_true] at h
      simpa [List.dropWhile_cons, hp] using ih h
    · simp [hp] at h

theorem dropWhile_append_cons {p : Char → Bool} {l m : List Char} {a : Char} {t : List Char}
    (h : l.dropWhile p = a :: t) : (l ++ m).dropWhile p = a :: (t ++ m) := by
  induction l with
  | nil => simp at h
  | cons b l ih =>
    rw [List.dropWhile_cons] at h
    by_cases hp : p b
    · simp only [hp, if_true] at h
      simpa [List.dropWhile_cons, hp] using ih h
    · simp only [hp, if_false] at h
      injection h with h1 h2
      subst h1; subst h2
      simp [List.dropWhile_cons, hp]

theorem dropWhile_head_false {p : Char → Bool} {l : List Char} {a : Char} {t : List Char}
    (h : l.dropWhile p = a :: t) : p a = false := by
  induction l with
  | nil => simp at h
  | cons b l ih =>
    rw [List.dropWhile_cons] at h
    by_cases hp : p b
    · exact ih (by simpa [hp] using h)
    · simp only [hp, if_false] at h
      injection h with h1 h2
      subst h1
      exact Bool.eq_false_iff.mpr hp

theorem dropWhile_idem {p : Char → Bool} (l : List Char) :
    (l.dropWhile p).dropWhile p = l.dropWhile p := by
  cases h : l.dropWhile p with
  | nil => rfl
  | cons a t => exact List.dropWhile_cons_of_neg (by simp [dropWhile_head_false h])

theorem takeWhile_all {p : Char → Bool} {l : List Char}
    (h : ∀ c ∈ l, p c = true) : l.takeWhile p = l := by
  induction l with
  | nil => rfl
  | cons a l ih =>
    rw [List.takeWhile_cons, if_pos (h a (by simp))]
    rw [ih (fun c hc => h c (by simp [hc]))]

theorem takeWhile_append_stop {p : Char → Bool} {l m : List Char} {x : Char}
    (hl : ∀ c ∈ l, p c = true) (hx : p x = false) :
    (l ++ x :: m).takeWhile p = l := by
  induction l with
  | nil => simp [List.takeWhile_cons, hx]
  | cons a l ih =>
    rw [List.cons_append, List.takeWhile_cons, if_pos (hl a (by simp))]
    rw [ih (fun c hc => hl c (by simp [hc]))]

theorem isPrefixOf_append_nlStop {lit s m : List Char}
    (hlit : ∀ c ∈ lit, c ≠ '\n') :
    lit.isPrefixOf (s ++ '\n' :: m) = lit.isPrefixOf s := by
  induction lit generalizing s with
  | nil => simp [List.isPrefixOf]
  | cons a as ih =>
    cases s with
    | nil =>
      have ha : (a == '\n') = false := by
        simpa using hlit a (by simp)
      simp [List.isPrefixOf, ha]
    | cons b bs =>
      simp only [List.cons_append, List.isPrefixOf, List.append_eq]
      rw [ih (fun c hc => hlit c (by simp [hc]))]

theorem eq_append_drop_of_isPrefixOf {lit s : List Char}
    (h : lit.isPrefixOf s = true) : s = lit ++ s.drop lit.length := by
  induction lit generalizing s with
  | nil => simp
  | cons a as ih =>
    cases s with
    | nil => simp [List.isPrefixOf] at h
    | cons b bs =>
      simp only [List.isPrefixOf, Bool.and_eq_true, beq_iff_eq] at h
      obtain ⟨rfl, h2⟩ := h
      simpa using ih h2

theorem trimTrail_idem (l : List Char) : trimTrail (trimTrail l) = trimTrail l := by
  simp [trimTrail, List.reverse_reverse, dropWhile_idem]

theorem trimTrail_is_take (l : List Char) :
    trimTrail l ++ (l.reverse.takeWhile isPyWs).reverse = l := by
  have h := List.takeWhile_append_dropWhile (l := l.reverse) (p := isPyWs)
  have h2 := congrArg List.reverse h
  rw [List.reverse_append, List.reverse_reverse] at h2
  simpa [trimTrail] using h2

theorem dropWhile_trimTrail {l : List Char} (h : l.dropWhile isPyWs = l) :
    (trimTrail l).dropWhile isPyWs = trimTrail l := by
  cases ht : trimTrail l with
  | nil => rfl
  | cons c t =>
    have hsplit := trimTrail_is_take l
    rw [ht] at hsplit
    have hc : isPyWs c = false := by
      have hh : l.dropWhile isPyWs = c :: (t ++ (l.reverse.takeWhile isPyWs).reverse) := by
        rw [h, ← List.cons_append]
        exact hsplit.symm
      exact dropWhile_head_false hh
    exact List.dropWhile_cons_of_neg (by simp [hc])

theorem stripChars_idem (l : List Char) : stripChars (stripChars l) = stripChars l := by
  unfold stripChars
  rw [dropWhile_trimTrail (dropWhile_idem l), trimTrail_idem]

theorem pyStrip_mk (l : List Char) : pyStrip (String.mk l) = String.mk (stripChars l) := rfl

theorem mem_of_mem_dropWhile {p : Char → Bool} {l : List Char} {a : Char}
    (h : a ∈ l.dropWhile p) : a ∈ l := by
  induction l with
  | nil => simpa using h
  | cons b t ih =>
    rw [List.dropWhile_cons] at h
    by_cases hp : p b
    · simp only [hp, if_true] at h
      exact List.mem_cons_of_mem b (ih h)
    · simpa [hp] using h

theorem mem_of_mem_dropN {l : List Char} {a : Char} :
    ∀ {n : Nat}, a ∈ l.drop n → a ∈ l := by
  induction l with
  | nil => intro n h; simpa using h
  | cons b t ih =>
    intro n h
    cases n with
    | zero => simpa using h
    | succ m => exact List.mem_cons_of_mem b (ih h)

/-! ## Line-structure lemmas -/

theorem splitLines_ne_nil (l : List Char) : splitLines l ≠ [] := by
  cases l with
  | nil => simp [splitLines]
  | cons c rest =>
    by_cases hc : c = '\n'
    · simp [splitLines, hc]
    · simp only [splitLines, hc, if_false]
      cases splitLines rest <;> simp

theorem no_nl_of_mem_splitLines {l : List Char} :
    ∀ f ∈ splitLines l, '\n' ∉ f := by
  induction l with
  | nil =>
    intro f hf
    simp only [splitLines, List.mem_singleton] at hf
    simp [hf]
  | cons c rest ih =>
    intro f hf
    by_cases hc : c = '\n'
    · simp only [splitLines, hc, if_true, List.mem_cons] at hf
      rcases hf with rfl | hf
      · simp
      · exact ih f hf
    · simp only [splitLines, hc, if_false] at hf
      cases hsp : splitLines rest with
      | nil => exact absurd hsp (splitLines_ne_nil rest)
      | cons g gs =>
        rw [hsp] at hf
        simp only [List.mem_cons] at hf
        rcases hf with rfl | hf
        · intro hmem
          rcases List.mem_cons.mp hmem with h1 | h1
          · exact hc h1.symm
          · exact ih g (by rw [hsp]; exact List.mem_cons_self g gs) h1
        · exact ih f (by rw [hsp]; exact List.mem_cons_of_mem g hf)

theorem splitLines_append_nl {m r : List Char} (hm : '\n' ∉ m) :
    splitLines (m ++ '\n' :: r) = m :: splitLines r := by
  induction m with
  | nil => simp [splitLines]
  | cons a t ih =>
    have ha : a ≠ '\n' := fun h => hm (by simp [h])
    have ht : '\n' ∉ t := fun h => hm (List.mem_cons_of_mem a h)
    simp only [List.cons_append, splitLines, ha, if_false]
    rw [List.append_eq, ih ht]

/-! ## The regex search coincides with the per-line reading on good texts -/

theorem extractTail_of_cons {t : List Char} {a : Char} {u : List Char}
    (h : t.dropWhile isPyWs = a :: u) :
    extractTail t = some (trimTrail ((a :: u).takeWhile (fun c => c ≠ '\n'))) := by
  unfold extractTail
  rw [h]
  simp only [extractTailAux]

theorem searchLines_eq_firstLineValue (ls : List (List Char))
    (h : ∀ f ∈ ls, goodLine f = true ∧ '\n' ∉ f) :
    (searchLines ls).map (fun g => pyStrip (String.mk g)) = firstLineValue ls := by
  induction ls with
  | nil => rfl
  | cons f rest ih =>
    obtain ⟨hgood, hnl⟩ := h f (List.mem_cons_self f rest)
    have ihr := ih (fun g hg => h g (List.mem_cons_of_mem f hg))
    cases hdw : f.dropWhile isPyWs with
    | nil =>
      -- a whitespace-only line: the per-line reading skips it, and the regex
      -- search from this line start lands on the next line's content
      have hspec : specLineValue f = none := by
        unfold specLineValue
        rw [hdw]
        rfl
      have hskip : searchLines (f :: rest) = searchLines rest := by
        cases rest with
        | nil =>
          have hm : matchAt (joinLines [f]) = none := by
            unfold matchAt
            rw [show joinLines [f] = f from rfl, hdw]
            rfl
          simp only [searchLines]
          rw [hm]
        | cons r rs =>
          have hm : matchAt (joinLines (f :: r :: rs)) = matchAt (joinLines (r :: rs)) := by
            unfold matchAt
            rw [show joinLines (f :: r :: rs) = f ++ '\n' :: joinLines (r :: rs) from rfl,
              dropWhile_append_nil hdw,
              List.dropWhile_cons_of_pos (show isPyWs '\n' = true by decide)]
          simp only [searchLines]
          rw [hm]
          cases matchAt (joinLines (r :: rs)) <;> rfl
      rw [hskip]
      simp only [firstLineValue]
      rw [hspec]
      exact ihr
    | cons c d =>
      have hnld : '\n' ∉ d := by
        intro hm
        exact hnl (mem_of_mem_dropWhile (p := isPyWs) (l := f)
          (by rw [hdw]; exact List.mem_cons_of_mem c hm))
      -- the joined text seen from this line start, beyond the leading
      -- whitespace: the line's content followed by nothing or by a newline
      obtain ⟨T, hT, hJdw⟩ : ∃ T, (T = [] ∨ ∃ J, T = '\n' :: J) ∧
          (joinLines (f :: rest)).dropWhile isPyWs = c :: (d ++ T) := by
        cases rest with
        | nil =>
          exact ⟨[], Or.inl rfl, by rw [show joinLines [f] = f from rfl, hdw]; simp⟩
        | cons r rs =>
          refine ⟨'\n' :: joinLines (r :: rs), Or.inr ⟨_, rfl⟩, ?_⟩
          rw [show joinLines (f :: r :: rs) = f ++ '\n' :: joinLines (r :: rs) from rfl,
            dropWhile_append_cons hdw]
      have hmatch : matchAt (joinLines (f :: rest)) = matchAtCore (c :: (d ++ T)) := by
        unfold matchAt
        rw [hJdw]
      by_cases hc : c = '#'
      · subst hc
        have hgoodc : goodLineCore ('#' :: d) = true := by
          unfold goodLine at hgood
          rw [hdw] at hgood
          exact hgood
        cases hsf : d.dropWhile isPyWs with
        | nil =>
          have hfalse : goodLineCore ('#' :: d) = false := by
            simp [goodLineCore, hsf]
          rw [hgoodc] at hfalse
          exact Bool.noConfusion hfalse
        | cons e s2 =>
          have hsX : (d ++ T).dropWhile isPyWs = e :: (s2 ++ T) := dropWhile_append_cons hsf
          have hpre_eq : filePathLit.isPrefixOf (e :: (s2 ++ T))
              = filePathLit.isPrefixOf (e :: s2) := by
            rcases hT with rfl | ⟨J, rfl⟩
            · simp
            · have hstop := @isPrefixOf_append_nlStop filePathLit (e :: s2) J (by decide)
              simpa using hstop
          by_cases hp : filePathLit.isPrefixOf (e :: s2) = true
          · -- a genuine `# File path:` line; goodness says the value is on it
            have hsplit : e :: s2 = filePathLit ++ (e :: s2).drop filePathLit.length :=
              eq_append_drop_of_isPrefixOf hp
            have hr : ((e :: s2).drop filePathLit.length).dropWhile isPyWs ≠ [] := by
              intro hnil
              have hfalse : goodLineCore ('#' :: d) = false := by
                simp [goodLineCore, hsf, hp, hnil]
              rw [hgoodc] at hfalse
              exact Bool.noConfusion hfalse
            cases hrd : ((e :: s2).drop filePathLit.length).dropWhile isPyWs with
            | nil => exact absurd hrd hr
            | cons e2 r2 =>
              have hnotin : '\n' ∉ e2 :: r2 := by
                intro hm
                have h1 : '\n' ∈ (e :: s2).drop filePathLit.length :=
                  mem_of_mem_dropWhile (by rw [hrd]; exact hm)
                have h2 : '\n' ∈ e :: s2 := mem_of_mem_dropN h1
                have h3 : '\n' ∈ d := mem_of_mem_dropWhile (by rw [hsf]; exact h2)
                exact hnld h3
              have hdropX : (e :: (s2 ++ T)).drop filePathLit.length
                  = (e :: s2).drop filePathLit.length ++ T := by
                have h1 : e :: (s2 ++ T)
                    = filePathLit ++ ((e :: s2).drop filePathLit.length ++ T) := by
                  rw [← List.append_assoc, ← hsplit]
                  simp
                rw [h1, List.drop_left]
              have hdX : ((e :: s2).drop filePathLit.length ++ T).dropWhile isPyWs
                  = e2 :: (r2 ++ T) := dropWhile_append_cons hrd
              have htw : ((e2 :: (r2 ++ T))).takeWhile (fun x => x ≠ '\n')
                  = e2 :: r2 := by
                rcases hT with rfl | ⟨J, rfl⟩
                · rw [List.append_nil]
                  refine takeWhile_all (fun x hx => ?_)
                  rw [decide_eq_true_eq]
                  intro heq
                  exact hnotin (heq ▸ hx)
                · have hshape : e2 :: (r2 ++ '\n' :: J) = (e2 :: r2) ++ '\n' :: J := by simp
                  rw [hshape]
                  refine takeWhile_append_stop (fun x hx => ?_) (by decide)
                  rw [decide_eq_true_eq]
                  intro heq
                  exact hnotin (heq ▸ hx)
              have hmc : matchAtCore ('#' :: (d ++ T))
                  = some (stripChars ((e :: s2).drop filePathLit.length)) := by
                simp only [matchAtCore]
                rw [if_pos trivial, hsX, hpre_eq, if_pos hp, hdropX,
                  extractTail_of_cons hdX, htw]
                unfold stripChars
                rw [hrd]
              have hspec : specLineValue f
                  = some (String.mk (stripChars ((e :: s2).drop filePathLit.length))) := by
                unfold specLineValue
                rw [hdw]
                simp only [specLineValueCore]
                rw [if_pos trivial, hsf, if_pos hp, if_neg (by rw [hrd]; simp)]
              have hsearch : searchLines (f :: rest)
                  = some (stripChars ((e :: s2).drop filePathLit.length)) := by
                simp only [searchLines]
                rw [hmatch, hmc]
              rw [hsearch]
              simp only [Option.map_some']
              rw [pyStrip_mk, stripChars_idem]
              simp only [firstLineValue]
              rw [hspec]
          · -- a comment line that is not a `File path:` line
            have hmc : matchAtCore ('#' :: (d ++ T)) = none := by
              simp only [matchAtCore]
              rw [if_pos trivial, hsX, hpre_eq, if_neg hp]
            have hspec : specLineValue f = none := by
              unfold specLineValue
              rw [hdw]
              simp only [specLineValueCore]
              rw [if_pos trivial, hsf, if_neg hp]
            have hskip : searchLines (f :: rest) = searchLines rest := by
              simp only [searchLines]
              rw [hmatch, hmc]
            rw [hskip]
            simp only [firstLineValue]
            rw [hspec]
            exact ihr
      · -- the first non-whitespace character is not `#`
        have hmc : matchAtCore (c :: (d ++ T)) = none := by
          simp only [matchAtCore]
          rw [if_neg hc]
        have hspec : specLineValue f = none := by
          unfold specLineValue
          rw [hdw]
          simp only [specLineValueCore]
          rw [if_neg hc]
        have hskip : searchLines (f :: rest) = searchLines rest := by
          simp only [searchLines]
          rw [hmatch, hmc]
        rw [hskip]
        simp only [firstLineValue]
        rw [hspec]
        exact ihr

/-! ## Database helper lemmas -/

theorem createTable_mem (name ddl : String) (db : DB) :
    ((createTableIfNotExists name ddl db).tables.any (fun t => t.1 == name)) = true := by
  unfold createTableIfNotExists
  by_cases hin : db.tables.any (fun t => t.1 == name) = true
  · rw [if_pos hin]
    exact hin
  · rw [if_neg hin]
    simp

theorem createTable_noop {name ddl : String} {db : DB}
    (h : db.tables.any (fun t => t.1 == name) = true) :
    createTableIfNotExists name ddl db = db := by
  unfold createTableIfNotExists
  rw [if_pos h]

theorem createTable_idem (name ddl : String) (db : DB) :
    createTableIfNotExists name ddl (createTableIfNotExists name ddl db)
      = createTableIfNotExists name ddl db :=
  createTable_noop (createTable_mem name ddl db)

theorem ensureRun_ok_eq (d : DB) :
    ensureRun okEnsure d
      = ⟨Except.ok (), createTableIfNotExists "notes" ensureNotesDdl d, ConnFate.closed⟩ :=
  rfl

/-! ## Claim C1 -/

/-- Claim C1: running `ensure_notes_schema` (with the engine succeeding)
twice in succession yields the same `notes` schema and no error on the
second run, and any number n of runs, n at least 1, produces the state of a
single run. -/
theorem schemaEnsurer_idempotent (db : DB) (n : Nat) (h : 1 ≤ n) :
    (ensureRun okEnsure ((ensureRun okEnsure db).db)).outcome = Except.ok ()
    ∧ (ensureRun okEnsure ((ensureRun okEnsure db).db)).db = (ensureRun okEnsure db).db
    ∧ (fun d => (ensureRun okEnsure d).db)^[n] db = (ensureRun okEnsure db).db := by
  have hidem : ∀ d : DB,
      (ensureRun okEnsure ((ensureRun okEnsure d).db)).db = (ensureRun okEnsure d).db := by
    intro d
    rw [ensureRun_ok_eq d, ensureRun_ok_eq]
    exact createTable_idem "notes" ensureNotesDdl d
  refine ⟨rfl, hidem db, ?_⟩
  have hall : ∀ m : Nat,
      (fun d => (ensureRun okEnsure d).db)^[m + 1] db = (ensureRun okEnsure db).db := by
    intro m
    induction m with
    | zero => simp
    | succ k ihk =>
      rw [Function.iterate_succ_apply', ihk]
      exact hidem db
  obtain ⟨m, rfl⟩ : ∃ m, n = m + 1 := ⟨n - 1, (Nat.succ_pred_eq_of_pos h).symm⟩
  exact hall m

theorem schemaEnsurer_idempotent_witness :
    1 ≤ 2
    ∧ ((ensureRun okEnsure ((ensureRun okEnsure (DB.mk [] [])).db)).outcome = Except.ok ()
      ∧ (ensureRun okEnsure ((ensureRun okEnsure (DB.mk [] [])).db)).db
          = (ensureRun okEnsure (DB.mk [] [])).db
      ∧ (fun d => (ensureRun okEnsure d).db)^[2] (DB.mk [] [])
          = (ensureRun okEnsure (DB.mk [] [])).db) :=
  ⟨by decide, schemaEnsurer_idempotent (DB.mk [] []) 2 (by decide)⟩

/-! ## Claim C9 -/

/-- Claim C9: once `ensure_notes_schema` has acquired its connection (the
`connect` call did not raise), the connection is closed on every exit path,
whether the DDL execution and commit succeed or raise. -/
theorem connection_always_released (b : EnsureBehavior) (db0 : DB)
    (h : b.connectErr = none) :
    (ensureRun b db0).conn = ConnFate.closed := by
  unfold ensureRun
  rw [h]
  cases hx : b.execErr with
  | some e => rfl
  | none =>
    cases hcm : b.commitErr with
    | some e => rfl
    | none => rfl

theorem connection_always_released_witness :
    (⟨none, some "disk I/O error", none⟩ : EnsureBehavior).connectErr = none
    ∧ (ensureRun ⟨none, some "disk I/O error", none⟩ (DB.mk [] [])).conn
        = ConnFate.closed :=
  ⟨rfl, connection_always_released ⟨none, some "disk I/O error", none⟩ (DB.mk [] []) rfl⟩

/-! ## Claim C5 -/

/-- Claim C5: with the path resolved, a database-engine failure during the
DDL step (execute or commit) propagates out of `ensure_notes_schema`, and
`main` then prints to the error stream and exits non-zero; when everything
succeeds the exit code is 0 and nothing is printed to the error stream. -/
theorem ddl_failure_propagates (fs : FileRead) (b : EnsureBehavior) (db0 : DB)
    (pth : String) (hres : getDbPathEnsure fs = Except.ok pth)
    (hconn : b.connectErr = none) :
    ((b.execErr ≠ none ∨ b.commitErr ≠ none) →
      (ensureRun b db0).outcome ≠ Except.ok ()
      ∧ (ensureMain fs b db0).exitCode ≠ 0
      ∧ (ensureMain fs b db0).stderrHasError = true)
    ∧ (b.execErr = none ∧ b.commitErr = none →
      (ensureMain fs b db0).exitCode = 0
      ∧ (ensureMain fs b db0).stderrHasError = false) := by
  constructor
  · intro he
    have herr : ∃ e, (ensureRun b db0).outcome = Except.error e := by
      unfold ensureRun
      rw [hconn]
      cases hx : b.execErr with
      | some e => exact ⟨e, rfl⟩
      | none =>
        cases hcm : b.commitErr with
        | some e => exact ⟨e, rfl⟩
        | none =>
          rcases he with he | he
          · exact absurd hx he
          · exact absurd hcm he
    obtain ⟨e, he2⟩ := herr
    refine ⟨?_, ?_, ?_⟩
    · rw [he2]
      intro hcontra
      cases hcontra
    · unfold ensureMain
      rw [hres, he2]
      intro hcontra
      exact Nat.noConfusion hcontra
    · unfold ensureMain
      rw [hres, he2]
  · rintro ⟨hx, hcm⟩
    have hok : (ensureRun b db0).outcome = Except.ok () := by
      unfold ensureRun
      rw [hconn, hx, hcm]
    unfold ensureMain
    rw [hres, hok]
    exact ⟨rfl, rfl⟩

theorem ddl_failure_propagates_witness :
    (ensureRun ⟨none, some "disk I/O error", none⟩ (DB.mk [] [])).outcome ≠ Except.ok ()
    ∧ (ensureMain .absent ⟨none, some "disk I/O error", none⟩ (DB.mk [] [])).exitCode ≠ 0
    ∧ (ensureMain .absent ⟨none, some "disk I/O error", none⟩
        (DB.mk [] [])).stderrHasError = true :=
  (ddl_failure_propagates .absent ⟨none, some "disk I/O error", none⟩ (DB.mk [] [])
    "myapp.db" rfl rfl).1 (Or.inl (by decide))

/-! ## Claim C6 -/

/-- Claim C6: in every database state, seeding `app_info` with
`("version", "0.1.0")` and then `("version", "0.2.0")` leaves exactly one
row for key `version`, holding `0.2.0`: the second insert replaces the
first. -/
theorem upsert_replaces_on_conflict (db : DB) :
    ((insertOrReplaceAppInfo "version" "0.2.0"
        (insertOrReplaceAppInfo "version" "0.1.0" db)).appInfo.filter
      (fun r => r.1 == "version")) = [("version", "0.2.0")] := by
  unfold insertOrReplaceAppInfo
  simp [List.filter_append, List.filter_filter]

/-! ## Claim C7 -/

/-- Claim C7: a fully successful run of `init_db.py` on a non-existent
database file computes (and prints) exactly the statistics
user-defined-table count = 3 and `app_info` row count = 4, for every
resolver outcome and every absolute path. -/
theorem init_statistics (fs : FileRead) (absPath : String) :
    (initRun fs okInit none absPath).tableCount = some 3
    ∧ (initRun fs okInit none absPath).recordCount = some 4 :=
  ⟨rfl, rfl⟩

/-! ## Claim C3 -/

/-- Claim C3 (counterexample): the resolver of `ensure_notes_schema.py`
does not fall back to the default on a file that exists but cannot be read;
the read failure propagates to the caller instead of any path being
returned. -/
theorem resolver_read_failure_counterexample :
    getDbPathEnsure FileRead.unreadable = Except.error () := rfl

/-- Claim C3 (amended): the Initializer's resolver never lets an exception
propagate — an unreadable file degrades to the default — and on readable
or absent files the two resolvers agree; but the SchemaEnsurer's resolver
propagates the read failure when the file exists and cannot be read. -/
theorem resolver_read_failure_behavior :
    getDbPathInit FileRead.unreadable = "myapp.db"
    ∧ getDbPathInit FileRead.absent = "myapp.db"
    ∧ getDbPathEnsure FileRead.absent = Except.ok "myapp.db"
    ∧ (∀ t : String, getDbPathEnsure (.content t) = Except.ok (getDbPathInit (.content t)))
    ∧ getDbPathEnsure FileRead.unreadable = Except.error () :=
  ⟨rfl, rfl, rfl, fun _ => rfl, rfl⟩

/-! ## Claim C4 -/

/-- Claim C4 (counterexample): a commit failure in `init_db.py` is not
caught; the script dies and the interpreter exits with code 1, not 0. -/
theorem init_commit_failure_counterexample :
    (initRun .absent ⟨none, none, none, some "disk I/O error", none, none, none, none⟩
      none "/app/db/myapp.db").exitCode = 1 := by decide

/-- Claim C4 (amended): `init_db.py` exits with code 0 exactly when the
unguarded steps — the setup `connect`, the seven `execute` statements, the
`commit`, the statistic queries and the `os.makedirs("db_visualizer")`
directory creation — all succeed; a failure in any of them escapes the
script and the process exits with code 1.  Failures of the guarded steps
(connectivity check, sidecar write, env-file write) are logged as warnings
and never affect the exit code. -/
theorem init_exit_code (fs : FileRead) (b : InitBehavior) (df : Option DB)
    (absPath : String) :
    ((b.connectErr = none ∧ b.execErr = none ∧ b.commitErr = none ∧ b.statsErr = none
        ∧ b.mkdirErr = none) →
      (initRun fs b df absPath).exitCode = 0)
    ∧ ((b.connectErr ≠ none ∨ b.execErr ≠ none ∨ b.commitErr ≠ none ∨ b.statsErr ≠ none
        ∨ b.mkdirErr ≠ none) →
      (initRun fs b df absPath).exitCode = 1) := by
  constructor
  · rintro ⟨h1, h2, h3, h4, h5⟩
    unfold initRun
    rw [h1, h2, h3, h4, h5]
  · intro h
    unfold initRun
    cases hc : b.connectErr with
    | some e => rfl
    | none =>
      cases hx : b.execErr with
      | some ke =>
        obtain ⟨k, e⟩ := ke
        rfl
      | none =>
        cases hcm : b.commitErr with
        | some e => rfl
        | none =>
          cases hst : b.statsErr with
          | some e => rfl
          | none =>
            cases hmk : b.mkdirErr with
            | some e => rfl
            | none =>
              rcases h with h | h | h | h | h
              · exact absurd hc h
              · exact absurd hx h
              · exact absurd hcm h
              · exact absurd hst h
              · exact absurd hmk h

theorem init_exit_code_witness :
    (initRun .absent okInit none "/app/db/myapp.db").exitCode = 0
    ∧ (initRun .absent ⟨none, some "unable to open database file", none, none, none,
        none, none, none⟩ none "/app/db/myapp.db").exitCode = 1
    ∧ (initRun .absent ⟨none, none, none, none, none, none,
        some "read-only file system", none⟩ none "/app/db/myapp.db").exitCode = 1 :=
  ⟨(init_exit_code .absent okInit none "/app/db/myapp.db").1 ⟨rfl, rfl, rfl, rfl, rfl⟩,
    (init_exit_code .absent ⟨none, some "unable to open database file", none, none, none,
      none, none, none⟩ none "/app/db/myapp.db").2 (Or.inl (by decide)),
    (init_exit_code .absent ⟨none, none, none, none, none, none,
      some "read-only file system", none⟩ none "/app/db/myapp.db").2
      (Or.inr (Or.inr (Or.inr (Or.inr (by decide)))))⟩

/-! ## Claim C10 -/

/-- Claim C10 (counterexample): the two `notes` DDL statements are not
character-for-character identical up to surrounding whitespace: after
stripping both, the column lines are indented twelve spaces in
SchemaEnsurer's statement and eight in Initializer's. -/
theorem notes_ddl_not_identical : pyStrip ensureNotesDdl ≠ pyStrip initNotesDdl := by
  decide

/-- Claim C10 (amended): the two `notes` DDL statements are identical line
by line up to per-line leading/trailing whitespace (so they declare the
same table), and running SchemaEnsurer on any database provisioned by a
successful Initializer run leaves the whole database — in particular the
`notes` schema — unchanged. -/
theorem notes_ddl_equivalent :
    (splitLines ensureNotesDdl.data).map (fun l => String.mk (stripChars l))
      = (splitLines (pyStrip initNotesDdl).data).map (fun l => String.mk (stripChars l))
    ∧ ∀ (fs : FileRead) (absPath : String) (df : Option DB) (d : DB),
        (initRun fs okInit df absPath).dbFile = some d →
        (ensureRun okEnsure d).db = d := by
  constructor
  · decide
  · intro fs absPath df d h
    have hval : (initRun fs okInit df absPath).dbFile
        = some (initOps.foldl (fun x op => op x) (df.getD (DB.mk [] []))) := rfl
    rw [hval] at h
    injection h with h
    subst h
    have ht : (initOps.foldl (fun x op => op x) (df.getD (DB.mk [] []))).tables
        = (createTableIfNotExists "notes" initNotesDdl
            (createTableIfNotExists "users" initUsersDdl
              (createTableIfNotExists "app_info" initAppInfoDdl
                (df.getD (DB.mk [] []))))).tables := rfl
    have hmem : ((initOps.foldl (fun x op => op x) (df.getD (DB.mk [] []))).tables.any
        (fun t => t.1 == "notes")) = true := by
      rw [ht]
      exact createTable_mem "notes" initNotesDdl _
    rw [ensureRun_ok_eq]
    exact createTable_noop hmem

theorem notes_ddl_equivalent_witness :
    (ensureRun okEnsure (DB.mk
        [("app_info", initAppInfoDdl), ("users", initUsersDdl), ("notes", initNotesDdl)]
        [("project_name", "database"), ("version", "0.1.0"), ("author", "John Doe"),
          ("description", "")])).db
      = DB.mk
        [("app_info", initAppInfoDdl), ("users", initUsersDdl), ("notes", initNotesDdl)]
        [("project_name", "database"), ("version", "0.1.0"), ("author", "John Doe"),
          ("description", "")] :=
  notes_ddl_equivalent.2 .absent "/app/db/myapp.db" none _ rfl

/-! ## Claim C2 -/

/-- Claim C2 (counterexample): the resolver is not line-by-line.  In the
file `"# File path:\njunk\n# File path: real\n"` the only line matching
`# File path: <value>` carries the value `real`, so the claim requires
`real` (and requires the default if one reads the empty-valued first marker
as non-matching); but the regex's `\s*` crosses the newline after the first
`# File path:` and the code returns `junk`. -/
theorem resolver_not_line_by_line :
    specResolve "# File path:\njunk\n# File path: real\n" = "real"
    ∧ resolveFromText "# File path:\njunk\n# File path: real\n" = "junk"
    ∧ getDbPathInit (.content "# File path:\njunk\n# File path: real\n") = "junk" :=
  ⟨by decide, by decide, by decide⟩

/-- Claim C2 (amended): provided no line of the file reduces to a bare `#`
and every `# File path:` line carries a non-whitespace value on the same
line (`goodText`), the resolver returns the first matching line's value
trimmed of surrounding whitespace, and the fixed default `myapp.db` when no
line matches or the file does not exist; this holds for both copies of the
resolver.  (Without that proviso the pattern's whitespace may span line
boundaries and capture content of a later line, as the counterexample
shows.) -/
theorem resolver_line_by_line_on_good_text (text : String) (h : goodText text = true) :
    getDbPathInit (.content text) = specResolve text
    ∧ getDbPathEnsure (.content text) = Except.ok (specResolve text)
    ∧ getDbPathInit .absent = "myapp.db"
    ∧ getDbPathEnsure .absent = Except.ok "myapp.db" := by
  have hlines : ∀ f ∈ splitLines text.data, goodLine f = true ∧ '\n' ∉ f := by
    intro f hf
    refine ⟨?_, no_nl_of_mem_splitLines f hf⟩
    unfold goodText at h
    rw [List.all_eq_true] at h
    exact h f hf
  have key := searchLines_eq_firstLineValue (splitLines text.data) hlines
  have hres : resolveFromText text = specResolve text := by
    unfold resolveFromText specResolve
    cases hs : searchLines (splitLines text.data) with
    | none =>
      rw [hs] at key
      simp only [Option.map_none'] at key
      rw [← key]
    | some g =>
      rw [hs] at key
      simp only [Option.map_some'] at key
      rw [← key]
  refine ⟨hres, ?_, rfl, rfl⟩
  show Except.ok (resolveFromText text) = Except.ok (specResolve text)
  rw [hres]

theorem resolver_line_by_line_witness :
    goodText "  # File path:  /tmp/x.db  \nother stuff\n# File path: second" = true
    ∧ getDbPathInit (.content "  # File path:  /tmp/x.db  \nother stuff\n# File path: second")
        = specResolve "  # File path:  /tmp/x.db  \nother stuff\n# File path: second" :=
  ⟨by decide,
    (resolver_line_by_line_on_good_text
      "  # File path:  /tmp/x.db  \nother stuff\n# File path: second" (by decide)).1⟩

/-! ## Claim C8 -/

theorem firstLineValue_cons_none {f : List Char} {rest : List (List Char)}
    (h : specLineValue f = none) :
    firstLineValue (f :: rest) = firstLineValue rest := by
  simp only [firstLineValue]
  rw [h]

theorem firstLineValue_cons_some {f : List Char} {rest : List (List Char)} {v : String}
    (h : specLineValue f = some v) :
    firstLineValue (f :: rest) = some v := by
  simp only [firstLineValue]
  rw [h]

theorem isPrefixOf_append_self (l X : List Char) : l.isPrefixOf (l ++ X) = true := by
  induction l with
  | nil => simp [List.isPrefixOf]
  | cons a as ih => simp [List.isPrefixOf, ih]

/-- Claim C8: the round trip.  For every absolute path with no newline, no
leading or trailing whitespace and nonempty (every `os.path.abspath` result
is), a successful Initializer run writes the sidecar file whose last line
is `# File path: <absolute path>`, and both resolvers applied to that file
content return exactly that path: no earlier line of the written file
matches the pattern. -/
theorem sidecar_roundtrip (fs : FileRead) (df : Option DB) (absPath : String)
    (hn : ∀ c ∈ absPath.data, c ≠ '\n')
    (h1 : absPath.data.dropWhile isPyWs = absPath.data)
    (h2 : trimTrail absPath.data = absPath.data) :
    (initRun fs okInit df absPath).sidecar = some (sidecarContentOf absPath)
    ∧ getDbPathInit (.content (sidecarContentOf absPath)) = absPath
    ∧ getDbPathEnsure (.content (sidecarContentOf absPath)) = Except.ok absPath := by
  by_cases hemp : absPath = ""
  · subst hemp
    exact ⟨rfl, by decide, by decide⟩
  have hne' : absPath.data ≠ [] := by
    intro hd
    apply hemp
    cases absPath with
    | mk l =>
      simp only [String.data] at hd
      rw [hd]
  -- no newline occurs in the connection string either
  have hC : '\n' ∉ (connectionStringOf absPath).data := by
    intro hm
    unfold connectionStringOf lstripSlashes at hm
    rw [String.data_append] at hm
    rcases List.mem_append.mp hm with hm | hm
    · exact absurd hm (by decide)
    · exact (hn '\n' (mem_of_mem_dropWhile hm)) rfl
  have hA1 : '\n' ∉ ("# SQLite connection methods:" : String).data := by decide
  have hA2 : '\n' ∉ ("# Python: sqlite3.connect(" ++ sq ++ "myapp.db" ++ sq ++ ")"
      : String).data := by decide
  have hA3C : '\n' ∉ ("# Connection string: " : String).data
      ++ (connectionStringOf absPath).data := by
    intro hm
    rcases List.mem_append.mp hm with hm | hm
    · exact absurd hm (by decide)
    · exact hC hm
  have hA4abs : '\n' ∉ ("# File path: " : String).data ++ absPath.data := by
    intro hm
    rcases List.mem_append.mp hm with hm | hm
    · exact absurd hm (by decide)
    · exact (hn '\n' hm) rfl
  -- the written file, as a character list with its line structure exposed
  have hdata : (sidecarContentOf absPath).data
      = ("# SQLite connection methods:" : String).data ++ '\n' ::
        (("# Python: sqlite3.connect(" ++ sq ++ "myapp.db" ++ sq ++ ")" : String).data ++ '\n' ::
          ((("# Connection string: " : String).data ++ (connectionStringOf absPath).data) ++ '\n' ::
            ((("# File path: " : String).data ++ absPath.data) ++ '\n' :: []))) := by
    have e1 : ("# SQLite connection methods:\n" : String).data
        = ("# SQLite connection methods:" : String).data ++ ['\n'] := by decide
    have e2 : (")\n" : String).data = (")" : String).data ++ ['\n'] := by decide
    have e3 : ("\n" : String).data = ['\n'] := by decide
    unfold sidecarContentOf
    simp only [String.data_append, e1, e2, e3, List.append_assoc, List.cons_append,
      List.singleton_append, List.nil_append]
  have hsplit : splitLines (sidecarContentOf absPath).data
      = [("# SQLite connection methods:" : String).data,
         ("# Python: sqlite3.connect(" ++ sq ++ "myapp.db" ++ sq ++ ")" : String).data,
         ("# Connection string: " : String).data ++ (connectionStringOf absPath).data,
         ("# File path: " : String).data ++ absPath.data,
         []] := by
    rw [hdata, splitLines_append_nl hA1, splitLines_append_nl hA2,
      splitLines_append_nl hA3C, splitLines_append_nl hA4abs]
    rfl
  -- per-line values and goodness
  have d3a : ("# Connection string: " : String).data
      = '#' :: (" Connection string: " : String).data := by decide
  have d3b : ((" Connection string: " : String).data).dropWhile isPyWs
      = 'C' :: ("onnection string: " : String).data := by decide
  have hp3 : filePathLit.isPrefixOf
      ('C' :: (("onnection string: " : String).data ++ (connectionStringOf absPath).data))
      = false := by
    rw [show filePathLit = 'F' :: ("ile path:" : String).data from by decide]
    simp [List.isPrefixOf]
  have d4a : ("# File path: " : String).data = '#' :: (" File path: " : String).data := by
    decide
  have d4b : ((" File path: " : String).data).dropWhile isPyWs
      = 'F' :: ("ile path: " : String).data := by decide
  have hform : 'F' :: (("ile path: " : String).data ++ absPath.data)
      = filePathLit ++ (' ' :: absPath.data) := by
    have hx : ('F' :: ("ile path: " : String).data) = filePathLit ++ [' '] := by decide
    calc 'F' :: (("ile path: " : String).data ++ absPath.data)
        = ('F' :: ("ile path: " : String).data) ++ absPath.data := by simp
      _ = (filePathLit ++ [' ']) ++ absPath.data := by rw [hx]
      _ = filePathLit ++ (' ' :: absPath.data) := by simp
  have hdw4 : (' ' :: absPath.data).dropWhile isPyWs = absPath.data := by
    rw [List.dropWhile_cons_of_pos (by decide)]
    exact h1
  have hnotEmpty : ¬(absPath.data.isEmpty = true) := by
    intro hc
    exact hne' (List.isEmpty_iff.mp hc)
  have v1 : specLineValue ("# SQLite connection methods:" : String).data = none := by decide
  have v2 : specLineValue ("# Python: sqlite3.connect(" ++ sq ++ "myapp.db" ++ sq ++ ")"
      : String).data = none := by decide
  have v3 : specLineValue (("# Connection string: " : String).data
      ++ (connectionStringOf absPath).data) = none := by
    unfold specLineValue
    rw [d3a, List.cons_append, List.dropWhile_cons_of_neg (by decide)]
    simp only [specLineValueCore]
    rw [if_pos trivial, dropWhile_append_cons d3b, hp3]
    simp
  have v4 : specLineValue (("# File path: " : String).data ++ absPath.data)
      = some absPath := by
    unfold specLineValue
    rw [d4a, List.cons_append, List.dropWhile_cons_of_neg (by decide)]
    simp only [specLineValueCore]
    rw [if_pos trivial, dropWhile_append_cons d4b, hform,
      if_pos (isPrefixOf_append_self filePathLit (' ' :: absPath.data)),
      List.drop_left, hdw4, if_neg hnotEmpty]
    have hstrip : stripChars (' ' :: absPath.data) = absPath.data := by
      unfold stripChars
      rw [hdw4, h2]
    rw [hstrip]
  have v5 : specLineValue ([] : List Char) = none := by decide
  have g3 : goodLine (("# Connection string: " : String).data
      ++ (connectionStringOf absPath).data) = true := by
    unfold goodLine
    rw [d3a, List.cons_append, List.dropWhile_cons_of_neg (by decide)]
    simp only [goodLineCore]
    rw [if_pos trivial, dropWhile_append_cons d3b, hp3]
    simp
  have g4 : goodLine (("# File path: " : String).data ++ absPath.data) = true := by
    unfold goodLine
    rw [d4a, List.cons_append, List.dropWhile_cons_of_neg (by decide)]
    simp only [goodLineCore]
    rw [if_pos trivial, dropWhile_append_cons d4b, hform,
      if_pos (isPrefixOf_append_self filePathLit (' ' :: absPath.data)),
      List.drop_left, hdw4,
      if_neg (by simp : ¬((filePathLit ++ (' ' :: absPath.data)).isEmpty = true))]
    cases hA : absPath.data with
    | nil => exact absurd hA hne'
    | cons a l => rfl
  -- the written file is good, so the regex search is line-by-line on it
  have hlines : ∀ f ∈ splitLines (sidecarContentOf absPath).data,
      goodLine f = true ∧ '\n' ∉ f := by
    intro f hf
    rw [hsplit] at hf
    simp only [List.mem_cons, List.not_mem_nil, or_false] at hf
    rcases hf with rfl | rfl | rfl | rfl | rfl
    · exact ⟨by decide, hA1⟩
    · exact ⟨by decide, hA2⟩
    · exact ⟨g3, hA3C⟩
    · exact ⟨g4, hA4abs⟩
    · exact ⟨by decide, by decide⟩
  have key := searchLines_eq_firstLineValue (splitLines (sidecarContentOf absPath).data) hlines
  have hfirst : firstLineValue (splitLines (sidecarContentOf absPath).data)
      = some absPath := by
    rw [hsplit, firstLineValue_cons_none v1, firstLineValue_cons_none v2,
      firstLineValue_cons_none v3, firstLineValue_cons_some v4]
  rw [hfirst] at key
  have hresolve : resolveFromText (sidecarContentOf absPath) = absPath := by
    unfold resolveFromText
    cases hs : searchLines (splitLines (sidecarContentOf absPath).data) with
    | none =>
      rw [hs] at key
      simp at key
    | some g =>
      rw [hs] at key
      simpa using key
  refine ⟨rfl, hresolve, ?_⟩
  show Except.ok (resolveFromText (sidecarContentOf absPath)) = Except.ok absPath
  rw [hresolve]

theorem sidecar_roundtrip_witness :
    (∀ c ∈ ("/tmp/x.db" : String).data, c ≠ '\n')
    ∧ (initRun .absent okInit none "/tmp/x.db").sidecar = some (sidecarContentOf "/tmp/x.db")
    ∧ getDbPathInit (.content (sidecarContentOf "/tmp/x.db")) = "/tmp/x.db" :=
  ⟨by decide,
    (sidecar_roundtrip .absent none "/tmp/x.db" (by decide) (by decide) (by decide)).1,
    (sidecar_roundtrip .absent none "/tmp/x.db" (by decide) (by decide) (by decide)).2.1⟩

end NotesDb
